import Mathlib

/-!
# go-apitor: metrics, registry and request interceptor

A shallow embedding of `metric.go`, `monitor.go`, `middleware.go` and
`paralel_action.go`.

Conventions of the embedding

* Go `string` is `String`, `[]string` is `List String` (a nil slice and an empty slice
  are both `[]`; the code only appends to them and takes their length).
* `float64` values are carried as rationals (`ℚ`). The only place where rounding
  matters is `int32(latency.Seconds())`; `Seconds` and `toInt32` say where the exact
  value and the float64 value have the same whole part.
* A Go map is an association list with distinct keys. `for k := range m` visits the keys
  in an order chosen by the runtime on every loop; that order is an explicit argument
  (`order`), which is a permutation of the keys whenever it comes from a real run.
* A method with a pointer receiver returns the new state of the receiver next to its Go
  result. A call that can panic returns `Option`, `none` being the panic.
* `*Metric` objects owned by the registry map are stored by value in the map; updating
  the object behind the pointer is updating the stored value.
-/

namespace GoApitor

/-! ## metric.go -/

/-- Go `error` values of the package: the three package-level sentinels and the fresh
values built by `errors.New` / `errors.Errorf`, identified by their message. -/
inductive GoError where
  | ErrMetricNotFound
  | ErrInvalidMetricName
  | ErrInvalidMetricType
  | errorf (msg : String)
  deriving DecidableEq, Repr

/-- `type MetricType string`: any string is a value of the type. -/
abbrev MetricType := String

def Counter : MetricType := "counter"

def Gauge : MetricType := "gauge"

def Histogram : MetricType := "histogram"

def Summary : MetricType := "summary"

def MetricType.EnumList (_t : MetricType) : List String :=
  ["counter", "gauge", "histogram", "summary"]

/-- The `for _, value := range values` loop of `IsValid`. -/
def MetricType.IsValid.loop (t : MetricType) : List String → Bool
  | [] => false
  | value :: rest => if t = value then true else MetricType.IsValid.loop t rest

def MetricType.IsValid (t : MetricType) : Bool :=
  MetricType.IsValid.loop t (MetricType.EnumList t)

/-- The four vector collectors of the prometheus client. -/
inductive VecKind where
  | CounterVec
  | GaugeVec
  | HistogramVec
  | SummaryVec
  deriving DecidableEq, Repr

/-- One series of a vector collector: its label values, the current value (counter and
gauge) and the recorded observations (histogram and summary). -/
structure Series where
  labelValues : List String
  value : ℚ
  observations : List ℚ
  deriving DecidableEq

/-- A `prometheus.Collector` built by one of the `New*Vec` constructors. -/
structure Collector where
  kind : VecKind
  name : String
  help : String
  labelNames : List String
  buckets : List ℚ
  objectives : List (ℚ × ℚ)
  series : List Series
  deriving DecidableEq

/-- Replace the series with label values `lv` by its image under `f`, creating it from
the zero series when it does not exist yet. -/
def Collector.modify (f : Series → Series) (lv : List String) : List Series → List Series
  | [] => [f { labelValues := lv, value := 0, observations := [] }]
  | s :: rest =>
    if s.labelValues = lv then f s :: rest else s :: Collector.modify f lv rest

/-- `vec.WithLabelValues(lv...)` followed by a mutator `f` of the series. The prometheus
client panics when the number of label values differs from the number of label names. -/
def Collector.WithLabelValues (c : Collector) (lv : List String) (f : Series → Series) :
    Option Collector :=
  if lv.length = c.labelNames.length then
    some { c with series := Collector.modify f lv c.series }
  else none

/-- Value of the series selected by `lv` (0 when the series was never touched). -/
def Collector.valueOf (c : Collector) (lv : List String) : ℚ :=
  match c.series.find? (fun s => s.labelValues = lv) with
  | some s => s.value
  | none => 0

/-- `Metric` of metric.go. `vec` is an interface value: `none` is the nil interface. -/
structure Metric where
  Typ : MetricType
  Name : String
  Description : String
  Labels : List String
  Buckets : List ℚ
  Objectives : List (ℚ × ℚ)
  vec : Option Collector
  deriving DecidableEq

def NewMetric (metricType : MetricType) (name : String) : Metric :=
  { Typ := metricType, Name := name, Description := "", Labels := [], Buckets := [],
    Objectives := [], vec := none }

def Metric.SetDescription (m : Metric) (desc : String) : Metric :=
  { m with Description := desc }

def Metric.SetLabels (m : Metric) (labels : List String) : Metric :=
  { m with Labels := m.Labels ++ labels }

def Metric.SetObjectives (m : Metric) (objectives : List (ℚ × ℚ)) : Metric :=
  { m with Objectives := objectives }

/-- The type assertion `m.vec.(*prometheus.XVec)`: the collector when it is of kind `k`. -/
def Metric.assertVec (m : Metric) (k : VecKind) : Option Collector :=
  match m.vec with
  | some c => if c.kind = k then some c else none
  | none => none

/-- Result of a kind-dispatch operation: `none` is a panic of the collector, otherwise
the returned error (`none` for nil) and the metric after the call. -/
abbrev OpResult := Option (Option GoError × Metric)

/-- Apply the series mutator `f` to the series of `vec` selected by `labelValues` and
store the collector back in the metric; the operation then returns `err` (nil). -/
def Metric.touch (m : Metric) (vec : Collector) (labelValues : List String)
    (f : Series → Series) : OpResult :=
  match vec.WithLabelValues labelValues f with
  | some vec1 => some (none, { m with vec := some vec1 })
  | none => none

def Metric.SetGaugeValue (m : Metric) (labelValues : List String) (value : ℚ) : OpResult :=
  if MetricType.IsValid m.Typ then some (some GoError.ErrInvalidMetricType, m)
  else if m.Typ ≠ Gauge then
    some (some (GoError.errorf ("metric '" ++ m.Name ++ "' not Gauge type")), m)
  else
    match m.assertVec VecKind.GaugeVec with
    | none => some (some GoError.ErrInvalidMetricType, m)
    | some vec => m.touch vec labelValues (fun s => { s with value := value })

def Metric.Inc (m : Metric) (labelValues : List String) : OpResult :=
  if MetricType.IsValid m.Typ then some (some GoError.ErrInvalidMetricType, m)
  else if m.Typ = Counter then
    match m.assertVec VecKind.CounterVec with
    | none => some (some GoError.ErrInvalidMetricType, m)
    | some vec => m.touch vec labelValues (fun s => { s with value := s.value + 1 })
  else if m.Typ = Gauge then
    match m.assertVec VecKind.GaugeVec with
    | none => some (some GoError.ErrInvalidMetricType, m)
    | some vec => m.touch vec labelValues (fun s => { s with value := s.value + 1 })
  else
    some (some (GoError.errorf ("metric '" ++ m.Name ++ "' not Gauge or Counter type")), m)

/-- `Add`. A prometheus counter panics when asked to add a negative value. -/
def Metric.Add (m : Metric) (labelValues : List String) (value : ℚ) : OpResult :=
  if MetricType.IsValid m.Typ then some (some GoError.ErrInvalidMetricType, m)
  else if m.Typ = Counter then
    match m.assertVec VecKind.CounterVec with
    | none => some (some GoError.ErrInvalidMetricType, m)
    | some vec =>
      if value < 0 then none
      else m.touch vec labelValues (fun s => { s with value := s.value + value })
  else if m.Typ = Gauge then
    match m.assertVec VecKind.GaugeVec with
    | none => some (some GoError.ErrInvalidMetricType, m)
    | some vec => m.touch vec labelValues (fun s => { s with value := s.value + value })
  else
    some (some (GoError.errorf ("metric '" ++ m.Name ++ "' not Gauge or Counter type")), m)

def Metric.Observe (m : Metric) (labelValues : List String) (value : ℚ) : OpResult :=
  if MetricType.IsValid m.Typ then some (some GoError.ErrInvalidMetricType, m)
  else if m.Typ = Histogram then
    match m.assertVec VecKind.HistogramVec with
    | none => some (some GoError.ErrInvalidMetricType, m)
    | some vec =>
      m.touch vec labelValues (fun s => { s with observations := s.observations ++ [value] })
  else if m.Typ = Summary then
    match m.assertVec VecKind.SummaryVec with
    | none => some (some GoError.ErrInvalidMetricType, m)
    | some vec =>
      m.touch vec labelValues (fun s => { s with observations := s.observations ++ [value] })
  else
    some (some (GoError.errorf ("metric '" ++ m.Name ++ "' not Histogram or Summary type")), m)

/-! ## monitor.go -/

/-- Modelled from the spec: the package `bloom` (its `BloomFilter`, `NewBloomFilter`,
`Contains` and `Add`) is not among the sources. The spec asks for an approximate
membership structure with `Contains(key) -> bool` and `Add(key)`, false positives
permitted, false negatives forbidden: `added` are the keys recorded by `Add`,
`collisions` the keys reported present without having been added. -/
structure BloomFilter where
  added : List String
  collisions : List String
  deriving DecidableEq

def NewBloomFilter : BloomFilter :=
  { added := [], collisions := [] }

def BloomFilter.Contains (b : BloomFilter) (key : String) : Bool :=
  decide (key ∈ b.added) || decide (key ∈ b.collisions)

def BloomFilter.Add (b : BloomFilter) (key : String) : BloomFilter :=
  { b with added := key :: b.added }

/-- `Monitor` of monitor.go (`slowTime` is an int32). The `interceptors` slice of
callbacks is used by no function embedded here and is left out. -/
structure Monitor where
  slowTime : Int
  metricPath : String
  excludePaths : List String
  reqDuration : List ℚ
  metrics : List (String × Metric)
  metadata : List (String × String)
  bloomFilter : BloomFilter
  deriving DecidableEq

def NewMonitor (metricPath : String) (slowTime : Int) (duration : List ℚ) : Monitor :=
  { metricPath := metricPath, slowTime := slowTime, reqDuration := duration,
    bloomFilter := NewBloomFilter, excludePaths := [], metrics := [], metadata := [] }

/-- The map read `m[k]` with the comma-ok result: the first binding of `k`. -/
def mapGet {β : Type} : List (String × β) → String → Option β
  | [], _ => none
  | (k1, v) :: rest, k => if k1 = k then some v else mapGet rest k

/-- The map write `m[k] = v`: overwrite the binding of `k`, or add one. -/
def mapSet {β : Type} : List (String × β) → String → β → List (String × β)
  | [], k, v => [(k, v)]
  | (k1, v1) :: rest, k, v =>
    if k1 = k then (k1, v) :: rest else (k1, v1) :: mapSet rest k v

def Monitor.GetMetric (m : Monitor) (name : String) : Except GoError Metric :=
  match mapGet m.metrics name with
  | none => Except.error GoError.ErrMetricNotFound
  | some metric => Except.ok metric

def Monitor.SetMetricPath (m : Monitor) (path : String) : Monitor :=
  { m with metricPath := path }

def Monitor.SetExcludePaths (m : Monitor) (paths : List String) : Monitor :=
  { m with excludePaths := paths }

def Monitor.SetSlowTime (m : Monitor) (slowTime : Int) : Monitor :=
  { m with slowTime := slowTime }

def Monitor.SetDuration (m : Monitor) (duration : List ℚ) : Monitor :=
  { m with reqDuration := duration }

/-- The loop `metric.Name = prefix + metric.Name` over the values of the map: the
objects behind the stored pointers are renamed, the keys of the map are not touched.
Every entry of the map is taken to point to an object of its own, as when each
`AddMetric` is given a newly built metric; one object registered under two keys, which
the code would rename once per key, is outside the embedding. -/
def Monitor.SetMetricPrefix (m : Monitor) (pre : String) : Monitor :=
  { m with metrics := m.metrics.map (fun kv => (kv.1, { kv.2 with Name := pre ++ kv.2.Name })) }

def Monitor.SetMetricSuffix (m : Monitor) (suf : String) : Monitor :=
  { m with metrics := m.metrics.map (fun kv => (kv.1, { kv.2 with Name := kv.2.Name ++ suf })) }

/-- The collector a `New*Vec` constructor returns for a metric: no series yet. -/
def newVec (k : VecKind) (metric : Metric) : Collector :=
  { kind := k, name := metric.Name, help := metric.Description, labelNames := metric.Labels,
    buckets := metric.Buckets, objectives := metric.Objectives, series := [] }

/-- Modelled from the spec: the table `PromptTypeHandler` (metric kind to collector
constructor) is not among the sources. The spec has one constructor per kind of the
enumeration, which "constructs the kind-appropriate external collector using
labelNames/buckets/objectives" and "binds it to the metric"; a kind outside the
enumeration has no constructor. The entry returns its error and the metric after it. -/
def PromptTypeHandler (t : MetricType) : Option (Metric → Option GoError × Metric) :=
  if t = Counter then some (fun metric => (none, { metric with vec := some (newVec VecKind.CounterVec metric) }))
  else if t = Gauge then some (fun metric => (none, { metric with vec := some (newVec VecKind.GaugeVec metric) }))
  else if t = Histogram then some (fun metric => (none, { metric with vec := some (newVec VecKind.HistogramVec metric) }))
  else if t = Summary then some (fun metric => (none, { metric with vec := some (newVec VecKind.SummaryVec metric) }))
  else none

/-- `prometheus.MustRegister(c)` on the default registry `registry` (the collectors
registered so far). `accepts` is the decision of the prometheus client, a parameter of
the embedding; a refusal (or a nil collector) panics: `none`. -/
def MustRegister (accepts : List Collector → Collector → Bool) (registry : List Collector) :
    Option Collector → Option (List Collector)
  | none => none
  | some c => if accepts registry c then some (registry ++ [c]) else none

/-- What a call of `AddMetric` leaves behind: the returned error, the registry, the
prometheus default registry and the object behind the argument pointer. -/
structure AddResult where
  err : Option GoError
  monitor : Monitor
  registry : List Collector
  metric : Metric
  deriving DecidableEq

def Monitor.AddMetric (accepts : List Collector → Collector → Bool) (m : Monitor)
    (registry : List Collector) (metric : Metric) : Option AddResult :=
  if metric.Name = "" then
    some { err := some (GoError.errorf "metric name cannot be empty"), monitor := m,
           registry := registry, metric := metric }
  else
    match mapGet m.metrics metric.Name with
    | some _ =>
      some { err := some (GoError.errorf ("metric '" ++ metric.Name ++ "' is existed")),
             monitor := m, registry := registry, metric := metric }
    | none =>
      match PromptTypeHandler metric.Typ with
      | none =>
        some { err := some (GoError.errorf ("metric type '" ++ metric.Typ ++ "' not existed.")),
               monitor := m, registry := registry, metric := metric }
      | some setVec =>
        match setVec metric with
        | (some err, metric1) =>
          some { err := some err, monitor := m, registry := registry, metric := metric1 }
        | (none, metric1) =>
          match MustRegister accepts registry metric1.vec with
          | none => none
          | some registry1 =>
            some { err := none,
                   monitor := { m with metrics := mapSet m.metrics metric1.Name metric1 },
                   registry := registry1, metric := metric1 }

/-! ## middleware.go: default metrics and label schemas -/

def metricRequestTotal : String := "request_total"

def metricRequestUVTotal : String := "request_uv_total"

def metricURIRequestTotal : String := "uri_request_total"

def metricRequestBody : String := "request_body_total"

def metricResponseBody : String := "response_body_total"

def metricRequestDuration : String := "request_duration"

def metricSlowRequest : String := "slow_request_total"

def Monitor.includesMetadata (m : Monitor) : Bool :=
  decide (m.metadata.length > 0)

/-- The map read `m.metadata[v]`: the zero value `""` for a key that is not bound. -/
def Monitor.metadataAt (m : Monitor) (v : String) : String :=
  (mapGet m.metadata v).getD ""

/-- `getMetadata`: the loop `for v := range m.metadata`, visiting the keys in `order`,
appends the key to the labels and the value bound to it to the values. -/
def Monitor.getMetadata (m : Monitor) (order : List String) : List String × List String :=
  order.foldl (fun acc v => (acc.1 ++ [v], acc.2 ++ [m.metadataAt v])) ([], [])

def Monitor.getMetricLabelsIncludingMetadata (m : Monitor) (order : List String)
    (metricName : String) : List String :=
  let includes_metadata := m.includesMetadata
  let metadata_labels := (m.getMetadata order).1
  if metricName = metricRequestDuration then
    if includes_metadata then ["uri"] ++ metadata_labels else ["uri"]
  else if metricName = metricURIRequestTotal then
    if includes_metadata then ["uri", "method", "code"] ++ metadata_labels
    else ["uri", "method", "code"]
  else if metricName = metricSlowRequest then
    if includes_metadata then ["uri", "method", "code"] ++ metadata_labels
    else ["uri", "method", "code"]
  else
    if includes_metadata then metadata_labels else []

def Monitor.getMetricValues (m : Monitor) (order : List String) (metric_values : List String) :
    List String :=
  let includes_metadata := m.includesMetadata
  let metadata_values := (m.getMetadata order).2
  if includes_metadata then metric_values ++ metadata_values else metric_values

/-- State threaded through `RegisterDefaultMetrics`: the error of the last `AddMetric`,
the registry and the prometheus default registry. -/
structure RegState where
  err : Option GoError
  monitor : Monitor
  registry : List Collector
  deriving DecidableEq

/-- One `err = m.AddMetric(&Metric{...}); if err != nil { return err }` block: skipped
when an earlier block has returned, `none` when `MustRegister` panics. -/
def registerNext (accepts : List Collector → Collector → Bool) (metric : Monitor → Metric) :
    Option RegState → Option RegState
  | none => none
  | some st =>
    match st.err with
    | some _ => some st
    | none =>
      match st.monitor.AddMetric accepts st.registry (metric st.monitor) with
      | none => none
      | some r => some { err := r.err, monitor := r.monitor, registry := r.registry }

/-- `RegisterDefaultMetrics`. `order name` is the order in which the map loop of the
`getMetricLabelsIncludingMetadata name` call visits the metadata keys. -/
def Monitor.RegisterDefaultMetrics (accepts : List Collector → Collector → Bool)
    (order : String → List String) (m : Monitor) (registry : List Collector) :
    Option RegState :=
  let mk (t : MetricType) (name desc : String) (buckets : Monitor → List ℚ) :
      Monitor → Metric := fun mon =>
    { Typ := t, Name := name, Description := desc,
      Labels := mon.getMetricLabelsIncludingMetadata (order name) name,
      Buckets := buckets mon, Objectives := [], vec := none }
  let s0 : Option RegState := some { err := none, monitor := m, registry := registry }
  let s1 := registerNext accepts
    (mk Counter metricRequestTotal "all the server received request num." (fun _ => [])) s0
  let s2 := registerNext accepts
    (mk Counter metricRequestUVTotal "all the server received ip num." (fun _ => [])) s1
  let s3 := registerNext accepts
    (mk Counter metricURIRequestTotal "all the server received request num with every uri."
      (fun _ => [])) s2
  let s4 := registerNext accepts
    (mk Counter metricRequestBody "the server received request body size, unit byte"
      (fun _ => [])) s3
  let s5 := registerNext accepts
    (mk Counter metricResponseBody "the server send response body size, unit byte"
      (fun _ => [])) s4
  let s6 := registerNext accepts
    (mk Histogram metricRequestDuration "the time server took to handle the request."
      (fun mon => mon.reqDuration)) s5
  registerNext accepts
    (mk Counter metricSlowRequest
      ("the server handled slow requests counter, t=" ++ toString m.slowTime ++ ".")
      (fun _ => [])) s6

/-! ## paralel_action.go and `InterceptorHandler`

`p.Add(handle)` starts `handle` in a goroutine of its own. The handler and the
goroutines it started are run as an interleaving of atomic steps; which thread moves
next is decided by a schedule given as an argument. The closures read and write the
variable `metric_values` of the handler, which they capture by reference. -/

/-- `ParalelQuery.SetError`: a nil error is dropped, another one is appended. -/
def SetError (errs : List GoError) : Option GoError → List GoError
  | none => errs
  | some err => errs ++ [err]

/-- The result of `ParalelQuery.Wait` once every goroutine is done. -/
def Wait (errs : List GoError) : Option GoError :=
  match errs with
  | [] => none
  | err :: _ => some err

/-- The metric operation a closure ends with. -/
inductive Op where
  | Inc
  | Add (value : ℚ)
  | Observe (value : ℚ)
  deriving DecidableEq

/-- A call of `Inc`, `Add` or `Observe` made by a closure, with the label values passed. -/
structure Call where
  metric : String
  op : Op
  labelValues : List String
  deriving DecidableEq

/-- The statements of the closures handed to `p.Add`. `update name op` is the tail
`metric, err := m.GetMetric(name); if err != nil { return err };
return metric.op(m.getMetricValues(metric_values), ...)`. -/
inductive TaskInstr where
  | bloomAdd (clientIP : String)
  | assign (values : List String)
  | update (name : String) (op : Op)
  deriving DecidableEq

/-- The arguments of `InterceptorHandler`; `latency` is the value of `time.Since(start)`
read at line 217, a `time.Duration` in nanoseconds. -/
structure Request where
  latency : Int
  clientIP : String
  method : String
  path : String
  status : Int
  contentLength : Int
  responseSize : Int
  deriving DecidableEq

/-- `Duration.Seconds`, as the exact quotient. The float64 the Go function returns is this
quotient rounded; for a duration `0 ≤ d` below 2^24 seconds (16777216000000000 ns) the
rounded value has the same whole part, from 2^24 seconds on it can be rounded up to the
next whole second. -/
def Seconds (d : Int) : ℚ :=
  (d : ℚ) / 1000000000

/-- The conversion `int32(x)` of a float64: the fraction is discarded (truncation toward
zero) when the result fits an int32. For a value out of range Go leaves the result to the
implementation; the value taken here is the one amd64 gives, -2147483648. -/
def toInt32 (x : ℚ) : Int :=
  let t : Int := if 0 ≤ x then ⌊x⌋ else ⌈x⌉
  if -2147483648 ≤ t ∧ t ≤ 2147483647 then t else -2147483648

/-- A running `InterceptorHandler`: the next statement of the handler (`pc`), the shared
variable `metric_values`, the goroutines started so far (the name of their metric and
the statements they still have to run), the registry, `p.Err`, and the calls made. -/
structure Config where
  pc : Nat
  metric_values : List String
  threads : List (String × List TaskInstr)
  monitor : Monitor
  Err : List GoError
  calls : List Call
  panicked : Bool
  deriving DecidableEq

/-- `p.Add(handle)`: one more goroutine. -/
def Config.spawn (c : Config) (name : String) (body : List TaskInstr) : Config :=
  { c with threads := c.threads ++ [(name, body)], pc := c.pc + 1 }

/-- The statements of `InterceptorHandler` after the short-circuit test, lines 163-252,
one per value of `pc`; at `pc = 10` the handler is in `p.Wait()`. -/
def mainStep (r : Request) (c : Config) : Config :=
  match c.pc with
  | 0 => { c with metric_values := [], pc := 1 }
  | 1 => c.spawn metricRequestTotal [TaskInstr.update metricRequestTotal Op.Inc]
  | 2 =>
    if !c.monitor.bloomFilter.Contains r.clientIP then
      c.spawn metricRequestUVTotal
        [TaskInstr.bloomAdd r.clientIP, TaskInstr.assign [],
         TaskInstr.update metricRequestUVTotal Op.Inc]
    else { c with pc := 3 }
  | 3 => { c with metric_values := [r.path, r.method, toString r.status], pc := 4 }
  | 4 => c.spawn metricURIRequestTotal [TaskInstr.update metricURIRequestTotal Op.Inc]
  | 5 =>
    if r.contentLength ≥ 0 then
      c.spawn metricRequestBody
        [TaskInstr.assign [], TaskInstr.update metricRequestBody (Op.Add r.contentLength)]
    else { c with pc := 6 }
  | 6 =>
    if toInt32 (Seconds r.latency) > c.monitor.slowTime then
      c.spawn metricSlowRequest
        [TaskInstr.assign [r.path, r.method, toString r.status],
         TaskInstr.update metricSlowRequest Op.Inc]
    else { c with pc := 7 }
  | 7 => { c with metric_values := [r.path], pc := 8 }
  | 8 =>
    c.spawn metricRequestDuration
      [TaskInstr.update metricRequestDuration (Op.Observe (Seconds r.latency))]
  | 9 =>
    if r.responseSize > 0 then
      c.spawn metricResponseBody
        [TaskInstr.assign [], TaskInstr.update metricResponseBody (Op.Add r.responseSize)]
    else { c with pc := 10 }
  | _ => c

def applyOp (metric : Metric) (op : Op) (labelValues : List String) : OpResult :=
  match op with
  | Op.Inc => metric.Inc labelValues
  | Op.Add value => metric.Add labelValues value
  | Op.Observe value => metric.Observe labelValues value

/-- One statement of a closure. `order` is the order in which the `getMetadata` call of
`getMetricValues` visits the metadata keys. -/
def execInstr (order : List String) (c : Config) : TaskInstr → Config
  | TaskInstr.bloomAdd clientIP =>
    { c with monitor := { c.monitor with bloomFilter := c.monitor.bloomFilter.Add clientIP } }
  | TaskInstr.assign values => { c with metric_values := values }
  | TaskInstr.update name op =>
    match c.monitor.GetMetric name with
    | Except.error err => { c with Err := SetError c.Err (some err) }
    | Except.ok metric =>
      let labelValues := c.monitor.getMetricValues order c.metric_values
      let call : Call := { metric := name, op := op, labelValues := labelValues }
      match applyOp metric op labelValues with
      | none => { c with calls := c.calls ++ [call], panicked := true }
      | some (err, metric1) =>
        { c with calls := c.calls ++ [call],
                 monitor := { c.monitor with metrics := mapSet c.monitor.metrics name metric1 },
                 Err := SetError c.Err err }

/-- The goroutine number `i` runs its next statement, if it has one left. -/
def threadStep (order : List String) (i : Nat) (c : Config) : Config :=
  match c.threads.get? i with
  | some (name, instr :: rest) =>
    execInstr order { c with threads := c.threads.set i (name, rest) } instr
  | _ => c

/-- A scheduling decision: thread `0` is the handler, thread `i + 1` the goroutine
number `i`; `order` is the map iteration order used if the step calls `getMetadata`. -/
structure Choice where
  tid : Nat
  order : List String
  deriving DecidableEq

def step (r : Request) (ch : Choice) (c : Config) : Config :=
  if c.panicked then c
  else if ch.tid = 0 then mainStep r c
  else threadStep ch.order (ch.tid - 1) c

def run (r : Request) : List Choice → Config → Config
  | [], c => c
  | ch :: rest, c => run r rest (step r ch c)

/-- Index of the first goroutine that still has statements to run. -/
def firstRunnable : List (String × List TaskInstr) → Option Nat
  | [] => none
  | (_, []) :: rest => (firstRunnable rest).map (fun i => i + 1)
  | (_, _ :: _) :: _ => some 0

/-- The thread that moves when the schedule is used up: the handler until it waits,
then the first goroutine with statements left. -/
def nextTid (c : Config) : Option Nat :=
  if c.pc < 10 then some 0
  else (firstRunnable c.threads).map (fun i => i + 1)

/-- Run what is left to the end (at most 10 handler statements and 7 goroutines of at
most 3 statements). -/
def drain (r : Request) (order : List String) : Nat → Config → Config
  | 0, c => c
  | fuel + 1, c =>
    if c.panicked then c
    else
      match nextTid c with
      | none => c
      | some tid => drain r order fuel (step r { tid := tid, order := order } c)

/-- What a call of `InterceptorHandler` leaves behind: the returned error, the registry,
the metrics whose closure was handed to `p.Add` (in order) and the calls made. -/
structure HandlerResult where
  err : Option GoError
  monitor : Monitor
  submitted : List String
  calls : List Call
  deriving DecidableEq

def initConfig (m : Monitor) : Config :=
  { pc := 0, metric_values := [], threads := [], monitor := m, Err := [], calls := [],
    panicked := false }

/-- `InterceptorHandler` under the schedule `sched` (`none`: a goroutine panicked). Once
the schedule is used up the remaining statements run in a fixed order, visiting the
metadata keys in the order of the association list. -/
def Monitor.InterceptorHandler (m : Monitor) (r : Request) (sched : List Choice) :
    Option HandlerResult :=
  if r.path = m.metricPath ∨ r.path ∈ m.excludePaths then
    some { err := none, monitor := m, submitted := [], calls := [] }
  else
    let c := drain r (m.metadata.map Prod.fst) 31 (run r sched (initConfig m))
    if c.panicked then none
    else some { err := Wait c.Err, monitor := c.monitor,
                submitted := c.threads.map Prod.fst, calls := c.calls }

/-! ## Sequences of registry calls, label tuples and concrete inputs -/

/-- The calls that change the registry map. -/
inductive RegistryCall where
  | AddMetric (metric : Metric)
  | SetMetricPrefix (pre : String)
  | SetMetricSuffix (suf : String)
  deriving DecidableEq

/-- State of a registry under a sequence of calls: the monitor, the prometheus default
registry and the errors returned by the `AddMetric` calls so far. -/
structure RegistryState where
  monitor : Monitor
  registry : List Collector
  returned : List (Option GoError)
  deriving DecidableEq

def applyCall (accepts : List Collector → Collector → Bool) (st : RegistryState) :
    RegistryCall → Option RegistryState
  | RegistryCall.AddMetric metric =>
    match st.monitor.AddMetric accepts st.registry metric with
    | none => none
    | some r =>
      some { monitor := r.monitor, registry := r.registry, returned := st.returned ++ [r.err] }
  | RegistryCall.SetMetricPrefix pre => some { st with monitor := st.monitor.SetMetricPrefix pre }
  | RegistryCall.SetMetricSuffix suf => some { st with monitor := st.monitor.SetMetricSuffix suf }

def applyCalls (accepts : List Collector → Collector → Bool) :
    List RegistryCall → RegistryState → Option RegistryState
  | [], st => some st
  | call :: rest, st =>
    match applyCall accepts st call with
    | none => none
    | some st1 => applyCalls accepts rest st1

/-- A prometheus registry that refuses a collector whose name is already registered. -/
def acceptsNewNames (registry : List Collector) (c : Collector) : Bool :=
  decide (c.name ∉ registry.map (fun d => d.name))

/-- The `Name` of every metric held by the registry. -/
def Monitor.heldNames (m : Monitor) : List String :=
  m.metrics.map (fun kv => kv.2.Name)

/-- The label names `getMetricLabelsIncludingMetadata` puts before the metadata keys. -/
def baseLabels (name : String) : List String :=
  if name = metricRequestDuration then ["uri"]
  else if name = metricURIRequestTotal ∨ name = metricSlowRequest then ["uri", "method", "code"]
  else []

/-- The seven default metrics as the registry map lists them: key, `Name` and `Type`. -/
def defaultMetricKinds : List (String × String × MetricType) :=
  [(metricRequestTotal, metricRequestTotal, Counter),
   (metricRequestUVTotal, metricRequestUVTotal, Counter),
   (metricURIRequestTotal, metricURIRequestTotal, Counter),
   (metricRequestBody, metricRequestBody, Counter),
   (metricResponseBody, metricResponseBody, Counter),
   (metricRequestDuration, metricRequestDuration, Histogram),
   (metricSlowRequest, metricSlowRequest, Counter)]

/-- A counter with one label, as a caller builds it before `AddMetric`. -/
def hitsMetric : Metric :=
  { Typ := Counter, Name := "hits", Description := "", Labels := ["uri"], Buckets := [],
    Objectives := [], vec := none }

/-- A gauge with one label, as a caller builds it before `AddMetric`. -/
def loadMetric : Metric :=
  { Typ := Gauge, Name := "load", Description := "", Labels := ["uri"], Buckets := [],
    Objectives := [], vec := none }

/-- A monitor with the default metrics registered, no metadata, `/health` excluded and
the slow threshold `slowTime`. -/
def exampleMonitor (slowTime : Int) : Monitor :=
  let m0 := (NewMonitor "/metrics" slowTime []).SetExcludePaths ["/health"]
  match m0.RegisterDefaultMetrics acceptsNewNames (fun _ => []) [] with
  | some st => st.monitor
  | none => m0

/-- The request `GET /items` answered with status 200, 120 bytes in and 340 bytes out,
`latency` nanoseconds after its start. -/
def exampleRequest (latency : Int) : Request :=
  { latency := latency, clientIP := "1.2.3.4", method := "GET", path := "/items",
    status := 200, contentLength := 120, responseSize := 340 }

/-- A registry with two metadata dimensions. -/
def twoKeys : Monitor :=
  { NewMonitor "/metrics" 5 [] with metadata := [("env", "prod"), ("zone", "a")] }

/-- The registry `twoKeys` after `RegisterDefaultMetrics`, every map loop of the
registration visiting the metadata keys as `env`, `zone`. -/
def twoKeysRegistered : Monitor :=
  match twoKeys.RegisterDefaultMetrics acceptsNewNames (fun _ => ["env", "zone"]) [] with
  | some st => st.monitor
  | none => twoKeys

/-- The metric and the label values of every call, in the order the calls were made. -/
def callTuples (calls : List Call) : List (String × List String) :=
  calls.map (fun c => (c.metric, c.labelValues))

/-! ## Invariants and measures of a running handler -/

/-- What a statement of a closure leaves alone: the handler position, the goroutines,
the threshold and the absence of a panic. -/
def ExecFrame (c c1 : Config) : Prop :=
  c1.pc = c.pc ∧ c1.threads = c.threads ∧
  c1.monitor.slowTime = c.monitor.slowTime ∧ c1.panicked = c.panicked

/-- What a goroutine step leaves alone: the handler position, the names of the
goroutines, the threshold and the absence of a panic. -/
def Frame (c c1 : Config) : Prop :=
  c1.pc = c.pc ∧ c1.threads.map Prod.fst = c.threads.map Prod.fst ∧
  c1.monitor.slowTime = c.monitor.slowTime ∧ c1.panicked = c.panicked

/-- Invariant of a running handler for the slow-request closure: no panic, the
threshold is the one of the call, and the closure has been started exactly when the
handler is past line 218 and the truncated elapsed time exceeds the threshold. -/
def SlowInv (m : Monitor) (r : Request) (c : Config) : Prop :=
  c.panicked = false ∧ c.monitor.slowTime = m.slowTime ∧ c.pc ≤ 10 ∧
  (metricSlowRequest ∈ c.threads.map Prod.fst ↔
    (6 < c.pc ∧ toInt32 (Seconds r.latency) > m.slowTime))

/-- Statements the handler at `pc` can still cause: its own and those of the closures
it may still start. -/
def budget : Nat → Nat
  | 0 => 22
  | 1 => 21
  | 2 => 19
  | 3 => 15
  | 4 => 14
  | 5 => 12
  | 6 => 9
  | 7 => 6
  | 8 => 5
  | 9 => 3
  | _ => 0

/-- Statements left to run in the goroutines started so far. -/
def pending (threads : List (String × List TaskInstr)) : Nat :=
  (threads.map (fun t => t.2.length)).sum

def work (c : Config) : Nat :=
  budget c.pc + pending c.threads

/-! ## Theorems -/

theorem IsValid_iff (t : MetricType) :
    MetricType.IsValid t = true ↔ t = Counter ∨ t = Gauge ∨ t = Histogram ∨ t = Summary := by
  simp [MetricType.IsValid, MetricType.EnumList, MetricType.IsValid.loop, Counter, Gauge,
    Histogram, Summary]

theorem applyOp_returns_error (metric : Metric) (op : Op) (lv : List String) :
    ∃ err, applyOp metric op lv = some (some err, metric) := by
  by_cases hv : MetricType.IsValid metric.Typ = true
  · cases op <;> simp [applyOp, Metric.Inc, Metric.Add, Metric.Observe, hv]
  · have h1 : ¬ (metric.Typ = Counter ∨ metric.Typ = Gauge ∨ metric.Typ = Histogram ∨
        metric.Typ = Summary) := by rwa [← IsValid_iff]
    have hc : metric.Typ ≠ Counter := fun e => h1 (Or.inl e)
    have hg : metric.Typ ≠ Gauge := fun e => h1 (Or.inr (Or.inl e))
    have hh : metric.Typ ≠ Histogram := fun e => h1 (Or.inr (Or.inr (Or.inl e)))
    have hs : metric.Typ ≠ Summary := fun e => h1 (Or.inr (Or.inr (Or.inr e)))
    cases op <;> simp [applyOp, Metric.Inc, Metric.Add, Metric.Observe, hv, hc, hg, hh, hs]

theorem execInstr_frame (order : List String) (c : Config) (instr : TaskInstr) :
    ExecFrame c (execInstr order c instr) := by
  cases instr with
  | bloomAdd ip => simp [execInstr, ExecFrame]
  | assign v => simp [execInstr, ExecFrame]
  | update name op =>
    simp only [execInstr]
    cases c.monitor.GetMetric name with
    | error e => simp [ExecFrame]
    | ok metric =>
      obtain ⟨err, he⟩ := applyOp_returns_error metric op
        (c.monitor.getMetricValues order c.metric_values)
      simp only [he]
      simp [ExecFrame]

/-- A goroutine step either does nothing or runs the first statement left. -/
theorem threadStep_cases (order : List String) (i : Nat) (c : Config) :
    (threadStep order i c = c ∧ ∀ name instr rest, c.threads.get? i ≠ some (name, instr :: rest)) ∨
    ∃ name instr rest, c.threads.get? i = some (name, instr :: rest) ∧
      ExecFrame { c with threads := c.threads.set i (name, rest) } (threadStep order i c) := by
  unfold threadStep
  split
  · rename_i name instr rest hget
    exact Or.inr ⟨name, instr, rest, hget, execInstr_frame order _ instr⟩
  · rename_i hno
    exact Or.inl ⟨rfl, fun name instr rest h => hno name instr rest h⟩

theorem map_fst_set (l : List (String × List TaskInstr)) (i : Nat) (name : String)
    (body rest : List TaskInstr) (h : l.get? i = some (name, body)) :
    (l.set i (name, rest)).map Prod.fst = l.map Prod.fst := by
  induction l generalizing i with
  | nil => simp
  | cons x xs ih =>
    cases i with
    | zero => simp at h; simp [h]
    | succ j => simp at h; simp [List.set, ih j (by simpa using h)]

theorem threadStep_frame (order : List String) (i : Nat) (c : Config) :
    Frame c (threadStep order i c) := by
  rcases threadStep_cases order i c with ⟨h, -⟩ | ⟨name, instr, rest, hget, f1, f2, f3, f4⟩
  · rw [h]; simp [Frame]
  · refine ⟨f1, ?_, f3, f4⟩
    rw [f2]
    exact map_fst_set c.threads i name (instr :: rest) rest hget

theorem pending_append (l1 l2 : List (String × List TaskInstr)) :
    pending (l1 ++ l2) = pending l1 + pending l2 := by
  simp [pending]

theorem pending_set (l : List (String × List TaskInstr)) (i : Nat) (name : String)
    (instr : TaskInstr) (rest : List TaskInstr) (h : l.get? i = some (name, instr :: rest)) :
    pending (l.set i (name, rest)) + 1 = pending l := by
  induction l generalizing i with
  | nil => simp at h
  | cons x xs ih =>
    cases i with
    | zero =>
      simp at h
      simp [pending, h]
      omega
    | succ j =>
      have := ih j (by simpa using h)
      simp [pending] at this ⊢
      omega

theorem mainStep_work (r : Request) (c : Config) (h : c.pc < 10) :
    work (mainStep r c) + 1 ≤ work c := by
  obtain ⟨pc, mv, th, mon, er, calls, pan⟩ := c
  simp only at h
  interval_cases pc <;> simp only [mainStep, Config.spawn, work] <;> (try split_ifs) <;>
    simp [pending_append, budget, pending] <;> omega

theorem mainStep_waiting (r : Request) (c : Config) (h : ¬ c.pc < 10) : mainStep r c = c := by
  obtain ⟨pc, mv, th, mon, er, calls, pan⟩ := c
  simp only [not_lt] at h
  obtain ⟨k, rfl⟩ := Nat.exists_eq_add_of_le h
  rw [Nat.add_comm]
  rfl

theorem threadStep_work (order : List String) (i : Nat) (c : Config) :
    work (threadStep order i c) ≤ work c ∧
    (∀ name instr rest, c.threads.get? i = some (name, instr :: rest) →
      work (threadStep order i c) + 1 = work c) := by
  rcases threadStep_cases order i c with ⟨h, hno⟩ | ⟨name, instr, rest, hget, f1, f2, -, -⟩
  · rw [h]
    exact ⟨le_refl _, fun name instr rest hg => absurd hg (hno name instr rest)⟩
  · have hp := pending_set c.threads i name instr rest hget
    have hw : work (threadStep order i c) + 1 = work c := by
      unfold work
      rw [f1, f2]
      simp only
      omega
    exact ⟨by omega, fun _ _ _ _ => hw⟩

theorem step_work (r : Request) (ch : Choice) (c : Config) : work (step r ch c) ≤ work c := by
  unfold step
  split_ifs
  · exact le_refl _
  · by_cases hp : c.pc < 10
    · have := mainStep_work r c hp; omega
    · rw [mainStep_waiting r c hp]
  · exact (threadStep_work ch.order _ c).1

theorem run_work (r : Request) (sched : List Choice) (c : Config) :
    work (run r sched c) ≤ work c := by
  induction sched generalizing c with
  | nil => exact le_refl _
  | cons ch rest ih => exact le_trans (ih _) (step_work r ch c)

theorem firstRunnable_none (l : List (String × List TaskInstr)) (h : firstRunnable l = none) :
    ∀ t ∈ l, t.2 = [] := by
  induction l with
  | nil => simp
  | cons x xs ih =>
    obtain ⟨name, body⟩ := x
    cases body with
    | nil =>
      simp only [firstRunnable, Option.map_eq_none'] at h
      intro t ht
      rcases List.mem_cons.1 ht with rfl | ht
      · rfl
      · exact ih h t ht
    | cons a b => simp [firstRunnable] at h

theorem firstRunnable_some (l : List (String × List TaskInstr)) (i : Nat)
    (h : firstRunnable l = some i) :
    ∃ name instr rest, l.get? i = some (name, instr :: rest) := by
  induction l generalizing i with
  | nil => simp [firstRunnable] at h
  | cons x xs ih =>
    obtain ⟨name, body⟩ := x
    cases body with
    | nil =>
      simp only [firstRunnable, Option.map_eq_some'] at h
      obtain ⟨j, hj, rfl⟩ := h
      obtain ⟨n, a, b, hg⟩ := ih j hj
      exact ⟨n, a, b, by simpa using hg⟩
    | cons a b =>
      simp only [firstRunnable, Option.some.injEq] at h
      subst h
      exact ⟨name, a, b, rfl⟩

theorem nextTid_none (c : Config) (h : nextTid c = none) :
    10 ≤ c.pc ∧ ∀ t ∈ c.threads, t.2 = [] := by
  unfold nextTid at h
  split_ifs at h with hp
  refine ⟨by omega, firstRunnable_none c.threads ?_⟩
  simpa using h

theorem nextTid_some_work (r : Request) (order : List String) (c : Config) (tid : Nat)
    (hp : c.panicked = false) (h : nextTid c = some tid) :
    work (step r { tid := tid, order := order } c) + 1 ≤ work c := by
  unfold nextTid at h
  split_ifs at h with hpc
  · simp only [Option.some.injEq] at h
    subst h
    simp only [step, hp, Bool.false_eq_true, if_false, if_true]
    exact mainStep_work r c hpc
  · simp only [Option.map_eq_some'] at h
    obtain ⟨i, hi, rfl⟩ := h
    obtain ⟨name, instr, rest, hg⟩ := firstRunnable_some c.threads i hi
    simp only [step, hp, Bool.false_eq_true, if_false, Nat.add_sub_cancel, Nat.add_one_ne_zero]
    exact le_of_eq ((threadStep_work order i c).2 name instr rest hg)

theorem mainStep_panicked (r : Request) (c : Config) :
    (mainStep r c).panicked = c.panicked := by
  by_cases hp : c.pc < 10
  · obtain ⟨pc, mv, th, mon, er, calls, pan⟩ := c
    simp only at hp
    interval_cases pc <;> simp only [mainStep, Config.spawn] <;> (try split_ifs) <;> rfl
  · rw [mainStep_waiting r c hp]

theorem step_panicked (r : Request) (ch : Choice) (c : Config) (hp : c.panicked = false) :
    (step r ch c).panicked = false := by
  unfold step
  split_ifs
  · exact hp
  · rw [mainStep_panicked, hp]
  · rw [(threadStep_frame ch.order _ c).2.2.2, hp]

theorem run_panicked (r : Request) (sched : List Choice) (c : Config)
    (hp : c.panicked = false) : (run r sched c).panicked = false := by
  induction sched generalizing c with
  | nil => exact hp
  | cons ch rest ih => exact ih _ (step_panicked r ch c hp)

/-- With enough fuel `drain` stops only when the handler waits and every goroutine has
run all its statements. -/
theorem drain_done (r : Request) (order : List String) (fuel : Nat) (c : Config)
    (hp : c.panicked = false) (hf : work c ≤ fuel) :
    10 ≤ (drain r order fuel c).pc ∧ ∀ t ∈ (drain r order fuel c).threads, t.2 = [] := by
  induction fuel generalizing c with
  | zero =>
    simp only [drain]
    cases hn : nextTid c with
    | none => exact nextTid_none c hn
    | some tid =>
      have := nextTid_some_work r order c tid hp hn
      omega
  | succ n ih =>
    simp only [drain, hp, Bool.false_eq_true, if_false]
    cases hn : nextTid c with
    | none => exact nextTid_none c hn
    | some tid =>
      have hw := nextTid_some_work r order c tid hp hn
      exact ih _ (step_panicked r _ c hp) (by omega)

/-- Every goroutine started by a call of the handler has run to its end when the call
returns: the 31 steps of `drain` are enough after any schedule. -/
theorem InterceptorHandler_goroutines_done (m : Monitor) (r : Request) (sched : List Choice) :
    ∀ t ∈ (drain r (m.metadata.map Prod.fst) 31 (run r sched (initConfig m))).threads,
      t.2 = [] := by
  have hw : work (run r sched (initConfig m)) ≤ 31 := by
    have h0 : work (initConfig m) = 22 := by simp [work, initConfig, budget, pending]
    have := run_work r sched (initConfig m)
    omega
  exact (drain_done r _ 31 _ (run_panicked r sched _ rfl) hw).2

theorem mainStep_inv (m : Monitor) (r : Request) (c : Config) (h : SlowInv m r c) :
    SlowInv m r (mainStep r c) ∧ (c.pc < 10 → (mainStep r c).pc = c.pc + 1) := by
  obtain ⟨pc, mv, th, mon, er, calls, pan⟩ := c
  obtain ⟨h1, h2, h3, h4⟩ := h
  simp only at h1 h2 h3 h4
  subst h1
  interval_cases pc <;>
    simp [mainStep, Config.spawn, SlowInv, metricRequestTotal, metricRequestUVTotal,
      metricURIRequestTotal, metricRequestBody, metricResponseBody, metricRequestDuration,
      metricSlowRequest] at h4 ⊢ <;>
    (try split_ifs) <;> simp_all [metricSlowRequest]

theorem step_inv (m : Monitor) (r : Request) (ch : Choice) (c : Config) (h : SlowInv m r c) :
    SlowInv m r (step r ch c) := by
  unfold step
  rw [h.1]
  simp only [Bool.false_eq_true, if_false]
  split_ifs
  · exact (mainStep_inv m r c h).1
  · obtain ⟨f1, f2, f3, f4⟩ := threadStep_frame ch.order (ch.tid - 1) c
    obtain ⟨h1, h2, h3, h4⟩ := h
    exact ⟨by rw [f4, h1], by rw [f3, h2], by rw [f1]; exact h3, by rw [f2, f1]; exact h4⟩

theorem run_inv (m : Monitor) (r : Request) (sched : List Choice) (c : Config)
    (h : SlowInv m r c) : SlowInv m r (run r sched c) := by
  induction sched generalizing c with
  | nil => exact h
  | cons ch rest ih => exact ih _ (step_inv m r ch c h)

theorem drain_inv (m : Monitor) (r : Request) (order : List String) (fuel : Nat) (c : Config)
    (h : SlowInv m r c) (hf : 10 - c.pc ≤ fuel) :
    SlowInv m r (drain r order fuel c) ∧ (drain r order fuel c).pc = 10 := by
  induction fuel generalizing c with
  | zero =>
    have : c.pc = 10 := by have := h.2.2.1; omega
    exact ⟨h, this⟩
  | succ n ih =>
    unfold drain
    rw [h.1]
    simp only [Bool.false_eq_true, if_false]
    by_cases hp : c.pc < 10
    · have hs : step r { tid := 0, order := order } c = mainStep r c := by
        simp [step, h.1]
      have hm := mainStep_inv m r c h
      simp only [nextTid, hp, if_true, hs]
      exact ih _ hm.1 (by rw [hm.2 hp]; omega)
    · have hp10 : c.pc = 10 := by have := h.2.2.1; omega
      simp only [nextTid, hp, if_false]
      split
      · exact ⟨h, hp10⟩
      · rename_i tid heq
        have hi := step_inv m r { tid := tid, order := order } c h
        have hpc : (step r { tid := tid, order := order } c).pc = c.pc := by
          unfold step
          rw [h.1]
          simp only [Bool.false_eq_true, if_false]
          split_ifs
          · obtain ⟨pc, mv, th, mon, er, calls, pan⟩ := c
            simp only at hp10
            subst hp10
            rfl
          · exact (threadStep_frame order _ c).1
        exact ih _ hi (by rw [hpc]; omega)

theorem initConfig_inv (m : Monitor) (r : Request) : SlowInv m r (initConfig m) := by
  simp [SlowInv, initConfig]

theorem getMetadata_fold (m : Monitor) (order : List String) (accL accV : List String) :
    order.foldl (fun acc v => (acc.1 ++ [v], acc.2 ++ [m.metadataAt v])) (accL, accV)
      = (accL ++ order, accV ++ order.map m.metadataAt) := by
  induction order generalizing accL accV with
  | nil => simp
  | cons v rest ih => simp [ih]

theorem getMetadata_eq (m : Monitor) (order : List String) :
    m.getMetadata order = (order, order.map m.metadataAt) := by
  simp [Monitor.getMetadata, getMetadata_fold]

theorem includesMetadata_of_perm (m : Monitor) (order : List String)
    (h : order.Perm (m.metadata.map Prod.fst)) :
    m.includesMetadata = decide (order ≠ []) := by
  have hl : order.length = m.metadata.length := by simpa using h.length_eq
  unfold Monitor.includesMetadata
  rw [← hl]
  cases order <;> simp

theorem labels_eq (m : Monitor) (order : List String) (name : String)
    (h : order.Perm (m.metadata.map Prod.fst)) :
    m.getMetricLabelsIncludingMetadata order name = baseLabels name ++ order := by
  have hi := includesMetadata_of_perm m order h
  unfold Monitor.getMetricLabelsIncludingMetadata baseLabels
  by_cases h1 : name = metricRequestDuration
  · cases order <;> simp_all [getMetadata_eq]
  · by_cases h2 : name = metricURIRequestTotal
    · cases order <;> simp_all [getMetadata_eq]
    · by_cases h3 : name = metricSlowRequest
      · cases order <;> simp_all [getMetadata_eq]
      · cases order <;> simp_all [getMetadata_eq]

theorem values_eq (m : Monitor) (order : List String) (vals : List String)
    (h : order.Perm (m.metadata.map Prod.fst)) :
    m.getMetricValues order vals = vals ++ order.map m.metadataAt := by
  have hi := includesMetadata_of_perm m order h
  unfold Monitor.getMetricValues
  cases order <;> simp_all [getMetadata_eq]
theorem mapGet_isSome_iff {β : Type} (l : List (String × β)) (k : String) :
    (mapGet l k).isSome = true ↔ k ∈ l.map Prod.fst := by
  induction l with
  | nil => simp [mapGet]
  | cons kv rest ih =>
    obtain ⟨k1, v⟩ := kv
    by_cases h : k1 = k
    · simp [mapGet, h]
    · have h2 : ¬ k = k1 := fun e => h e.symm
      simp [mapGet, h, h2, ih]

/-- For an elapsed time that is not negative and below 2^24 seconds,
`int32(latency.Seconds())` is the number of whole seconds elapsed. -/
theorem toInt32_Seconds (d : Int) (h0 : 0 ≤ d) (h1 : d < 16777216000000000) :
    toInt32 (Seconds d) = d / 1000000000 := by
  have hq : (0 : ℚ) ≤ (d : ℚ) / 1000000000 := by positivity
  have hfl : ⌊(d : ℚ) / 1000000000⌋ = d / 1000000000 := by
    exact_mod_cast Rat.floor_intCast_div_natCast d 1000000000
  have hlo : -2147483648 ≤ d / 1000000000 := by omega
  have hhi : d / 1000000000 ≤ 2147483647 := by omega
  simp only [toInt32, Seconds, if_pos hq, hfl]
  rw [if_pos ⟨hlo, hhi⟩]

/-- Under every schedule a request that is not short-circuited returns, and the
slow-request closure is among the closures started exactly when the truncated elapsed
time exceeds the threshold. -/
theorem slow_submitted_iff (m : Monitor) (r : Request) (sched : List Choice)
    (hpath : ¬ (r.path = m.metricPath ∨ r.path ∈ m.excludePaths)) :
    ∃ res, m.InterceptorHandler r sched = some res ∧
      (metricSlowRequest ∈ res.submitted ↔ toInt32 (Seconds r.latency) > m.slowTime) := by
  have h := drain_inv m r (m.metadata.map Prod.fst) 31 _
    (run_inv m r sched _ (initConfig_inv m r)) (by omega)
  obtain ⟨⟨h1, -, -, h4⟩, hpc⟩ := h
  unfold Monitor.InterceptorHandler
  rw [if_neg hpath]
  simp only [h1, Bool.false_eq_true, if_false]
  refine ⟨_, rfl, ?_⟩
  simp only
  rw [h4, hpc]
  simp

/-! ### Claims -/

/-- Claim C1 (defect of the code): a counter (and likewise a gauge) built by the caller,
bound to its `CounterVec` (`GaugeVec`) by `AddMetric` on a new monitor and fetched back
with `GetMetric`, answers `Inc` with `ErrInvalidMetricType` and is left as it was: no
series is incremented. -/
theorem Inc_registered_counter_returns_ErrInvalidMetricType :
    (∃ r metric,
      (NewMonitor "/metrics" 5 []).AddMetric acceptsNewNames [] hitsMetric = some r ∧
      r.err = none ∧
      r.monitor.GetMetric "hits" = Except.ok metric ∧
      metric.Typ = Counter ∧
      (metric.assertVec VecKind.CounterVec).isSome = true ∧
      metric.Inc ["/a"] = some (some GoError.ErrInvalidMetricType, metric)) ∧
    (∃ r metric,
      (NewMonitor "/metrics" 5 []).AddMetric acceptsNewNames [] loadMetric = some r ∧
      r.err = none ∧
      r.monitor.GetMetric "load" = Except.ok metric ∧
      metric.Typ = Gauge ∧
      (metric.assertVec VecKind.GaugeVec).isSome = true ∧
      metric.Inc ["/a"] = some (some GoError.ErrInvalidMetricType, metric)) := by
  refine ⟨⟨_, _, rfl, ?_, rfl, ?_, ?_, ?_⟩, ⟨_, _, rfl, ?_, rfl, ?_, ?_, ?_⟩⟩ <;> decide

/-- Claim C2 (defect of the code): a metric whose kind is none of the four known ones gets
the wrong-kind message from `SetGaugeValue`, `Inc`, `Add` and `Observe`, not
`ErrInvalidMetricType`; a counter gets `ErrInvalidMetricType` from `Observe` and a
histogram gets it from `Inc`, not the wrong-kind message. -/
theorem kind_dispatch_errors_swapped :
    (NewMetric "bogus" "m").SetGaugeValue [] 1
        = some (some (GoError.errorf "metric 'm' not Gauge type"), NewMetric "bogus" "m") ∧
    (NewMetric "bogus" "m").Inc []
        = some (some (GoError.errorf "metric 'm' not Gauge or Counter type"),
            NewMetric "bogus" "m") ∧
    (NewMetric "bogus" "m").Add [] 1
        = some (some (GoError.errorf "metric 'm' not Gauge or Counter type"),
            NewMetric "bogus" "m") ∧
    (NewMetric "bogus" "m").Observe [] 1
        = some (some (GoError.errorf "metric 'm' not Histogram or Summary type"),
            NewMetric "bogus" "m") ∧
    (NewMetric Counter "m").Observe [] 1
        = some (some GoError.ErrInvalidMetricType, NewMetric Counter "m") ∧
    (NewMetric Histogram "m").Inc []
        = some (some GoError.ErrInvalidMetricType, NewMetric Histogram "m") := by
  decide!

/-- Claim C3: `AddMetric` of a metric whose `Name` is empty or is already a key of the
metric map returns an error and changes nothing: the monitor (hence its metric map and
every `GetMetric` answer) and the prometheus registry are the ones before the call, and
the metric passed is untouched (no collector was built for it). -/
theorem AddMetric_rejects_empty_or_duplicate_name
    (accepts : List Collector → Collector → Bool) (m : Monitor) (registry : List Collector)
    (metric : Metric) (h : metric.Name = "" ∨ metric.Name ∈ m.metrics.map Prod.fst) :
    ∃ err, m.AddMetric accepts registry metric
        = some { err := some err, monitor := m, registry := registry, metric := metric } := by
  unfold Monitor.AddMetric
  by_cases h0 : metric.Name = ""
  · exact ⟨_, by rw [if_pos h0]⟩
  · rw [if_neg h0]
    have h1 : metric.Name ∈ m.metrics.map Prod.fst := h.resolve_left h0
    rw [← mapGet_isSome_iff] at h1
    cases hg : mapGet m.metrics metric.Name with
    | none => rw [hg] at h1; simp at h1
    | some old => exact ⟨_, rfl⟩

/-- Claim C3 at a registry holding the default metrics: a gauge named `request_total` is
refused and the counter registered first is still the one `GetMetric` finds. -/
theorem AddMetric_rejects_empty_or_duplicate_name_witness :
    ∃ err, (exampleMonitor 2).AddMetric acceptsNewNames [] (NewMetric Gauge metricRequestTotal)
        = some { err := some err, monitor := exampleMonitor 2, registry := [],
                 metric := NewMetric Gauge metricRequestTotal } :=
  AddMetric_rejects_empty_or_duplicate_name acceptsNewNames (exampleMonitor 2) []
    (NewMetric Gauge metricRequestTotal) (Or.inr (by decide))

/-- Claim C4 (defect of the code): on a new monitor, `AddMetric` of a counter named `x`,
`SetMetricPrefix("p")` and `AddMetric` of a counter named `px` all go through (both
`AddMetric` calls return nil) and leave the registry holding two metrics whose `Name` is
`px`: the rename does not touch the keys the duplicate test looks at. -/
theorem SetMetricPrefix_then_AddMetric_duplicates_Name :
    (applyCalls acceptsNewNames
        [RegistryCall.AddMetric (NewMetric Counter "x"), RegistryCall.SetMetricPrefix "p",
         RegistryCall.AddMetric (NewMetric Counter "px")]
        { monitor := NewMonitor "/metrics" 5 [], registry := [], returned := [] }).map
      (fun st => (st.returned, st.monitor.heldNames, st.monitor.metrics.map Prod.fst))
      = some ([none, none], ["px", "px"], ["x", "px"]) := by
  decide
/-- Claim C5, as stated, fails: with the slow threshold 2 the slow-request closure is not
started for a request that took 2.5 s, and with the threshold 1 it is not started for a
request that took 1.999 s. -/
theorem slow_task_not_submitted_for_fraction_over_threshold :
    ((exampleMonitor 2).InterceptorHandler (exampleRequest 2500000000) []).map
        (fun res => decide (metricSlowRequest ∈ res.submitted)) = some false ∧
    ((exampleMonitor 1).InterceptorHandler (exampleRequest 1999000000) []).map
        (fun res => decide (metricSlowRequest ∈ res.submitted)) = some false := by
  decide!

/-- Claim C5, amended: under every schedule a request that is not short-circuited and
whose elapsed time is not negative and below 2^24 seconds (16777216000000000 ns) returns,
and the slow-request closure is started exactly when the number of whole seconds elapsed
exceeds the threshold. With the threshold 2 it is started neither at 2.5 s nor at 1.9 s,
and with the threshold 1 it is not started at 1.999 s. -/
theorem slow_task_submitted_iff_whole_seconds_exceed (m : Monitor) (r : Request)
    (sched : List Choice) (hpath : ¬ (r.path = m.metricPath ∨ r.path ∈ m.excludePaths))
    (hlat : 0 ≤ r.latency) (hmax : r.latency < 16777216000000000) :
    ∃ res, m.InterceptorHandler r sched = some res ∧
      (metricSlowRequest ∈ res.submitted ↔ m.slowTime < r.latency / 1000000000) ∧
      (m.slowTime = 2 → r.latency = 2500000000 → metricSlowRequest ∉ res.submitted) ∧
      (m.slowTime = 2 → r.latency = 1900000000 → metricSlowRequest ∉ res.submitted) ∧
      (m.slowTime = 1 → r.latency = 1999000000 → metricSlowRequest ∉ res.submitted) := by
  obtain ⟨res, hres, hiff⟩ := slow_submitted_iff m r sched hpath
  rw [toInt32_Seconds r.latency hlat hmax] at hiff
  have hiff2 : metricSlowRequest ∈ res.submitted ↔ m.slowTime < r.latency / 1000000000 := by
    rw [hiff]
  refine ⟨res, hres, hiff2, ?_, ?_, ?_⟩ <;>
    · intro hs hl
      rw [hiff2, hs, hl]
      decide

/-- Claim C5, amended, at the threshold 2 and a request that took 3 s: the closure is
started, 3 whole seconds exceeding 2. -/
theorem slow_task_submitted_iff_whole_seconds_exceed_witness :
    ∃ res, (exampleMonitor 2).InterceptorHandler (exampleRequest 3000000000) [] = some res ∧
      (metricSlowRequest ∈ res.submitted ↔
        (exampleMonitor 2).slowTime < (exampleRequest 3000000000).latency / 1000000000) ∧
      ((exampleMonitor 2).slowTime = 2 → (exampleRequest 3000000000).latency = 2500000000 →
        metricSlowRequest ∉ res.submitted) ∧
      ((exampleMonitor 2).slowTime = 2 → (exampleRequest 3000000000).latency = 1900000000 →
        metricSlowRequest ∉ res.submitted) ∧
      ((exampleMonitor 2).slowTime = 1 → (exampleRequest 3000000000).latency = 1999000000 →
        metricSlowRequest ∉ res.submitted) :=
  slow_task_submitted_iff_whole_seconds_exceed (exampleMonitor 2) (exampleRequest 3000000000) []
    (by decide) (by decide) (by decide)

/-- Claim C6: a request whose path is the exposition path or an excluded path returns
nil under every schedule, starts no closure, makes no `Inc`, `Add` or `Observe` call and
leaves the monitor, its membership structure included, as it was. -/
theorem InterceptorHandler_short_circuit (m : Monitor) (r : Request) (sched : List Choice)
    (h : r.path = m.metricPath ∨ r.path ∈ m.excludePaths) :
    m.InterceptorHandler r sched
      = some { err := none, monitor := m, submitted := [], calls := [] } := by
  unfold Monitor.InterceptorHandler
  rw [if_pos h]

/-- Claim C6 at the excluded path `/health`. -/
theorem InterceptorHandler_short_circuit_witness :
    (exampleMonitor 2).InterceptorHandler { exampleRequest 50000000 with path := "/health" } []
      = some { err := none, monitor := exampleMonitor 2, submitted := [], calls := [] } :=
  InterceptorHandler_short_circuit (exampleMonitor 2)
    { exampleRequest 50000000 with path := "/health" } [] (Or.inr (by decide))

/-- Claim C7: whatever order the map loop visits the metadata keys in,
`getMetricLabelsIncludingMetadata` returns `uri` followed by the keys for
`request_duration`, `uri`, `method`, `code` followed by the keys for `uri_request_total`
and `slow_request_total`, and the keys alone for any other name; with no metadata these
are `[uri]`, `[uri, method, code]` and the empty list. -/
theorem getMetricLabelsIncludingMetadata_spec (m : Monitor) (order : List String)
    (h : order.Perm (m.metadata.map Prod.fst)) :
    ((m.getMetadata order).1 = order ∧
      m.getMetricLabelsIncludingMetadata order metricRequestDuration = ["uri"] ++ order ∧
      m.getMetricLabelsIncludingMetadata order metricURIRequestTotal
        = ["uri", "method", "code"] ++ order ∧
      m.getMetricLabelsIncludingMetadata order metricSlowRequest
        = ["uri", "method", "code"] ++ order ∧
      (∀ metricName, metricName ≠ metricRequestDuration →
        metricName ≠ metricURIRequestTotal → metricName ≠ metricSlowRequest →
        m.getMetricLabelsIncludingMetadata order metricName = order)) ∧
    (m.metadata = [] →
      m.getMetricLabelsIncludingMetadata order metricRequestDuration = ["uri"] ∧
      m.getMetricLabelsIncludingMetadata order metricURIRequestTotal
        = ["uri", "method", "code"] ∧
      m.getMetricLabelsIncludingMetadata order metricSlowRequest
        = ["uri", "method", "code"] ∧
      (∀ metricName, metricName ≠ metricRequestDuration →
        metricName ≠ metricURIRequestTotal → metricName ≠ metricSlowRequest →
        m.getMetricLabelsIncludingMetadata order metricName = [])) := by
  have key : ∀ name, m.getMetricLabelsIncludingMetadata order name = baseLabels name ++ order :=
    fun name => labels_eq m order name h
  have hd : baseLabels metricRequestDuration = ["uri"] := by decide
  have hu : baseLabels metricURIRequestTotal = ["uri", "method", "code"] := by decide
  have hs : baseLabels metricSlowRequest = ["uri", "method", "code"] := by decide
  have ho : ∀ metricName, metricName ≠ metricRequestDuration →
      metricName ≠ metricURIRequestTotal → metricName ≠ metricSlowRequest →
      baseLabels metricName = [] := by
    intro n h1 h2 h3
    simp [baseLabels, h1, h2, h3]
  refine ⟨⟨by simp [getMetadata_eq], by rw [key, hd], by rw [key, hu], by rw [key, hs], ?_⟩, ?_⟩
  · intro n h1 h2 h3
    rw [key, ho n h1 h2 h3, List.nil_append]
  · intro he
    have hn : order = [] := by
      rw [he] at h
      simpa using h
    subst hn
    refine ⟨by rw [key, hd]; rfl, by rw [key, hu]; rfl, by rw [key, hs]; rfl, ?_⟩
    intro n h1 h2 h3
    rw [key, ho n h1 h2 h3]
    rfl

/-- Claim C7 at a registry with the metadata keys `env` and `zone`, visited as `zone`,
`env`. -/
theorem getMetricLabelsIncludingMetadata_spec_witness :
    ((twoKeys.getMetadata ["zone", "env"]).1 = ["zone", "env"] ∧
      twoKeys.getMetricLabelsIncludingMetadata ["zone", "env"] metricRequestDuration
        = ["uri"] ++ ["zone", "env"] ∧
      twoKeys.getMetricLabelsIncludingMetadata ["zone", "env"] metricURIRequestTotal
        = ["uri", "method", "code"] ++ ["zone", "env"] ∧
      twoKeys.getMetricLabelsIncludingMetadata ["zone", "env"] metricSlowRequest
        = ["uri", "method", "code"] ++ ["zone", "env"] ∧
      (∀ metricName, metricName ≠ metricRequestDuration →
        metricName ≠ metricURIRequestTotal → metricName ≠ metricSlowRequest →
        twoKeys.getMetricLabelsIncludingMetadata ["zone", "env"] metricName
          = ["zone", "env"])) ∧
    (twoKeys.metadata = [] →
      twoKeys.getMetricLabelsIncludingMetadata ["zone", "env"] metricRequestDuration = ["uri"] ∧
      twoKeys.getMetricLabelsIncludingMetadata ["zone", "env"] metricURIRequestTotal
        = ["uri", "method", "code"] ∧
      twoKeys.getMetricLabelsIncludingMetadata ["zone", "env"] metricSlowRequest
        = ["uri", "method", "code"] ∧
      (∀ metricName, metricName ≠ metricRequestDuration →
        metricName ≠ metricURIRequestTotal → metricName ≠ metricSlowRequest →
        twoKeys.getMetricLabelsIncludingMetadata ["zone", "env"] metricName = [])) :=
  getMetricLabelsIncludingMetadata_spec twoKeys ["zone", "env"] (by decide)
/-- Claim C8: on a registry with an empty metric map and a backend that accepts every
collector, `RegisterDefaultMetrics` returns nil and leaves exactly seven metrics, keyed and
named `request_total`, `request_uv_total`, `uri_request_total`, `request_body_total`,
`response_body_total`, `request_duration` and `slow_request_total`; `request_duration`
is a histogram whose buckets are `reqDuration`, the other six are counters. -/
theorem RegisterDefaultMetrics_fresh (accepts : List Collector → Collector → Bool)
    (order : String → List String) (m : Monitor) (registry : List Collector)
    (hfresh : m.metrics = []) (hacc : ∀ reg c, accepts reg c = true) :
    ∃ st, m.RegisterDefaultMetrics accepts order registry = some st ∧
      st.err = none ∧
      st.monitor.metrics.length = 7 ∧
      st.monitor.metrics.map (fun kv => (kv.1, kv.2.Name, kv.2.Typ)) = defaultMetricKinds ∧
      (∃ metric, st.monitor.GetMetric metricRequestDuration = Except.ok metric ∧
        metric.Typ = Histogram ∧ metric.Buckets = m.reqDuration) := by
  simp [Monitor.RegisterDefaultMetrics, registerNext, Monitor.AddMetric, hfresh, hacc,
    PromptTypeHandler, MustRegister, mapGet, mapSet, Monitor.GetMetric, defaultMetricKinds,
    metricRequestTotal, metricRequestUVTotal, metricURIRequestTotal, metricRequestBody,
    metricResponseBody, metricRequestDuration, metricSlowRequest, Counter, Histogram, Gauge,
    Summary, newVec]

/-- Claim C8 at a new monitor with the bucket schedule 0.1, 0.5 and a backend that accepts
everything. -/
theorem RegisterDefaultMetrics_fresh_witness :
    ∃ st, (NewMonitor "/metrics" 5 [1 / 10, 1 / 2]).RegisterDefaultMetrics (fun _ _ => true)
        (fun _ => []) [] = some st ∧
      st.err = none ∧
      st.monitor.metrics.length = 7 ∧
      st.monitor.metrics.map (fun kv => (kv.1, kv.2.Name, kv.2.Typ)) = defaultMetricKinds ∧
      (∃ metric, st.monitor.GetMetric metricRequestDuration = Except.ok metric ∧
        metric.Typ = Histogram ∧
        metric.Buckets = (NewMonitor "/metrics" 5 [1 / 10, 1 / 2]).reqDuration) :=
  RegisterDefaultMetrics_fresh (fun _ _ => true) (fun _ => [])
    (NewMonitor "/metrics" 5 [1 / 10, 1 / 2]) [] rfl (fun _ _ => rfl)

/-- Claim C9 (defect of the code): with the metadata `env = prod`, `zone = a`, a
registration loop that visits `env`, `zone` and an update loop that visits `zone`, `env`
put the value of `zone` under the label `env`. `getMetricLabelsIncludingMetadata` gives
the labels `[env, zone]` and `getMetricValues` the values `[a, prod]`; in the handler,
`request_total` is registered with the labels `[env, zone]` and its closure, run right
after it is started, calls `Inc` with `[a, prod]`. -/
theorem metadata_values_mislabeled :
    twoKeys.getMetricLabelsIncludingMetadata ["env", "zone"] metricRequestTotal
      = ["env", "zone"] ∧
    twoKeys.getMetricValues ["zone", "env"] [] = ["a", "prod"] ∧
    twoKeys.metadataAt "env" = "prod" ∧
    twoKeys.metadataAt "zone" = "a" ∧
    (mapGet twoKeysRegistered.metrics metricRequestTotal).map (fun metric => metric.Labels)
      = some ["env", "zone"] ∧
    (twoKeysRegistered.InterceptorHandler (exampleRequest 50000000)
          [{ tid := 0, order := [] }, { tid := 0, order := [] },
           { tid := 1, order := ["zone", "env"] }]).map
        (fun res => (callTuples res.calls).head?)
      = some (some (metricRequestTotal, ["a", "prod"])) := by
  decide!

/-- Claim C10 (defect of the code): the closures read the variable `metric_values` of the
handler when they run. For the request `GET /items` (status 200) on a registry with the
default metrics and no metadata: when the goroutines run after the handler has reached
`p.Wait()`, `request_total` calls `Inc` with `[/items]`, and `uri_request_total` and
`request_duration` call `Inc` and `Observe` with no label value; when the
`request_total` goroutine runs right after line 190, it calls `Inc` with
`[/items, GET, 200]`. -/
theorem closures_read_shared_metric_values :
    ((exampleMonitor 1).InterceptorHandler (exampleRequest 50000000) []).map
        (fun res => callTuples res.calls)
      = some [(metricRequestTotal, ["/items"]), (metricRequestUVTotal, []),
              (metricURIRequestTotal, []), (metricRequestBody, []),
              (metricRequestDuration, []), (metricResponseBody, [])] ∧
    ((exampleMonitor 1).InterceptorHandler (exampleRequest 50000000)
          [{ tid := 0, order := [] }, { tid := 0, order := [] }, { tid := 0, order := [] },
           { tid := 0, order := [] }, { tid := 1, order := [] }]).map
        (fun res => (callTuples res.calls).head?)
      = some (some (metricRequestTotal, ["/items", "GET", "200"])) := by
  decide!

end GoApitor
